import Mathlib

/-!
Verification of the mod_io_download repository.

This file gives a shallow embedding of the repository's core: the storage
reconciliation engine (src/storage/models.py, src/storage/manager.py), the
concurrent download pipeline (src/downloader_client) and the install
pipeline with its content-folder resolution heuristic (src/installer).
Filesystem and hashing effects are modelled by an explicit environment
(`FS`); the persisted storage.json document is modelled by the parsed value
last written to it.  Theorems at the end of the file settle the claims of
the specification against these definitions.
-/

set_option maxRecDepth 10000

namespace ModIO

/-! ## Domain model (src/api_client/models/...)

Only the fields that the embedded core operations actually read are
carried; the remaining fields of the pydantic models (names, virus data,
download URLs, platform support lists) are opaque to the storage and
pipeline logic under verification. -/

/-- src/api_client/models/platform.py: the closed TargetPlatform enumeration. -/
inductive TargetPlatform where
  | windows | mac | linux | android | ios | xboxone | xboxseriesx
  | ps4 | ps5 | switch | oculus
deriving DecidableEq, Repr

/-- src/api_client/models/game.py: Game (fields read by the core: id, name_id). -/
structure Game where
  id : Int
  name_id : String
deriving DecidableEq, Repr

/-- src/api_client/models/mod.py: Mod (fields read by the core: id, name_id). -/
structure Mod where
  id : Int
  name_id : String
deriving DecidableEq, Repr

/-- src/api_client/models/mod_file.py: ModFile (fields read by the core:
id, filesize). -/
structure ModFile where
  id : Int
  filesize : Int
deriving DecidableEq, Repr

/-- Modelled from the spec: the class ModWithModfile is imported by
src/storage/manager.py and src/main.py from api_client.models.mod but is
defined nowhere under src/.  Spec section 3 describes the mod records the
core consumes as carrying a stable nameId and a per-platform
live-mod-file-id mapping; only those two parts are read by the embedded
operations (`m.name_id` and `m.get_platform(platform).modfile_live`). -/
structure ModWithModfile where
  name_id : String
  platforms : List (TargetPlatform × Int)
deriving DecidableEq, Repr

/-- `mod.get_platform(platform).modfile_live`: the live mod-file id that the
mod designates for the given platform (`next(filter(...))` over the
platform list; `none` models the StopIteration raised when absent). -/
def ModWithModfile.modfile_live (m : ModWithModfile) (platform : TargetPlatform) : Option Int :=
  (m.platforms.find? (fun pr => pr.1 == platform)).map (fun pr => pr.2)

/-! ## Download pipeline data (src/downloader_client/task.py) -/

/-- src/downloader_client/task.py: DownloadTask. -/
structure DownloadTask where
  download_file_path : String
  download_url : String
  game : Game
  mod : Mod
  mod_file : ModFile
deriving DecidableEq, Repr

/-- The body of a DownloadResult: DownloadResultOk with its byte count, or
DownloadResultError with the exception converted to text. -/
inductive DownloadOutcome where
  | ok (total_bytes : Int)
  | error (reason : String)
deriving DecidableEq, Repr

/-- src/downloader_client/task.py: DownloadResult, tagged to its task. -/
structure DownloadResult where
  task : DownloadTask
  result : DownloadOutcome
deriving DecidableEq, Repr

/-- `DownloadResult.is_ok`. -/
def DownloadResult.is_ok (r : DownloadResult) : Bool :=
  match r.result with
  | .ok _ => true
  | .error _ => false

/-! ## Install pipeline data (src/installer/task.py) -/

/-- src/installer/task.py: InstallationResultFailReason. -/
inductive InstallationResultFailReason where
  | no_pallet_found
  | no_filtered_pallet_found
  | too_many_filtered_pallets_found
deriving DecidableEq, Repr

/-- src/installer/task.py lines 10-15: the InstallationTask dataclass.  Its
fields are `downloaded_path`, `game`, `mod` and `mod_file` (whole domain
objects, not name ids). -/
structure InstallationTask where
  downloaded_path : String
  game : Game
  mod : Mod
  mod_file : ModFile
deriving DecidableEq, Repr

/-- The keyword names accepted by the generated dataclass constructor of
InstallationTask, i.e. exactly its declared fields. -/
def InstallationTask.initKeywords : List String :=
  ["downloaded_path", "game", "mod", "mod_file"]

/-- src/installer/task.py: InstallationResultOk / InstallationResultFail. -/
inductive InstallationOutcome where
  | ok (installed_paths : List String)
  | fail (reason : InstallationResultFailReason)
deriving DecidableEq, Repr

/-- src/installer/task.py: InstallationResult, tagged to its task. -/
structure InstallationResult where
  task : InstallationTask
  result : InstallationOutcome
deriving DecidableEq, Repr

/-- `InstallationResult.is_ok`. -/
def InstallationResult.is_ok (r : InstallationResult) : Bool :=
  match r.result with
  | .ok _ => true
  | .fail _ => false

/-! ## Python-level failures

Exceptions that the embedded storage-manager operations can raise.  The
storage update errors carry the offending result, mirroring
`StorageUpdateException.for_download_update` /
`for_installation_update` whose messages embed the result. -/

inductive PyErr where
  | attributeError (attr : String)
  | typeError (kwarg : String)
  | stopIteration
  | valueError (msg : String)
  | storageUpdateDownload (r : DownloadResult)
  | storageUpdateInstallation (r : InstallationResult)
deriving DecidableEq, Repr

/-! ## Storage model (src/storage/models.py) -/

/-- src/storage/models.py: DownloadedManagedMod. -/
structure DownloadedManagedMod where
  mod_file_id : Int
  file_path : String
  file_hash : String
deriving DecidableEq, Repr

/-- src/storage/models.py: InstalledManagedMod. -/
structure InstalledManagedMod where
  mod_file_id : Int
  installed_paths : List String
deriving DecidableEq, Repr

/-- src/storage/models.py: ManagedMod (two nullable sub-records). -/
structure ManagedMod where
  downloaded_mod : Option DownloadedManagedMod := none
  installed_mod : Option InstalledManagedMod := none
deriving DecidableEq, Repr

/-- The filesystem-and-hashing environment the storage manager runs
against: which paths are regular files, which are directories, and the MD5
digest of the contents found at a path (`ModStorageManager._hash_md5`,
chunked file reading abstracted to its result). -/
structure FS where
  isFile : String → Bool
  isDir : String → Bool
  md5 : String → String

/-- `InstalledManagedMod.all_paths_present`: every recorded installed path
exists as a directory. -/
def InstalledManagedMod.all_paths_present (fs : FS) (m : InstalledManagedMod) : Bool :=
  m.installed_paths.all fs.isDir

/-- `ManagedMod.contains_info`: at least one of the two nullable fields is set. -/
def ManagedMod.contains_info (m : ManagedMod) : Bool :=
  m.downloaded_mod.isSome || m.installed_mod.isSome

/-- `ManagedMod.has_mod_file_downloaded`. -/
def ManagedMod.has_mod_file_downloaded (m : ManagedMod) (requested : Int) : Bool :=
  match m.downloaded_mod with
  | none => false
  | some d => d.mod_file_id == requested

/-- `ManagedMod.has_mod_file_installed`: an installed record for exactly
this mod-file id whose paths are all still present on disk. -/
def ManagedMod.has_mod_file_installed (fs : FS) (m : ManagedMod) (requested : Int) : Bool :=
  match m.installed_mod with
  | none => false
  | some i => i.mod_file_id == requested && i.all_paths_present fs

/-- Association-list lookup with Python dict semantics (unique keys; first
match). -/
def alookup {V : Type} (k : String) : List (String × V) → Option V
  | [] => none
  | (k1, v) :: rest => if k1 = k then some v else alookup k rest

/-- Association-list assignment with Python dict semantics: replace in
place if the key is present, append at the end otherwise. -/
def aset {V : Type} (k : String) (v : V) : List (String × V) → List (String × V)
  | [] => [(k, v)]
  | (k1, w) :: rest => if k1 = k then (k1, v) :: rest else (k1, w) :: aset k v rest

/-- src/storage/models.py: Storage — `games : dict[str, dict[str, ManagedMod]]`,
modelled as nested insertion-ordered association lists. -/
structure Storage where
  games : List (String × List (String × ManagedMod)) := []
deriving DecidableEq, Repr

/-- The methods defined on the Storage class in src/storage/models.py
(lines 39-49).  In particular neither `get_managed_mods_for_game` nor
`replace_managed_mods`, both of which src/storage/manager.py line 176 and
line 190 invoke, is among them. -/
def Storage.methodNames : List String :=
  ["read_managed_mod", "write_managed_mod"]

/-- `Storage.read_managed_mod`: two-level lookup, None on KeyError. -/
def Storage.read_managed_mod (s : Storage) (game_name_id mod_name_id : String) :
    Option ManagedMod :=
  (alookup game_name_id s.games).bind (alookup mod_name_id)

/-- `Storage.write_managed_mod`: `self.games.setdefault(game, {})[mod] = managed_mod`.
A fresh game key is appended at the end; an existing inner dict is updated
in place. -/
def Storage.write_managed_mod (s : Storage) (game_name_id mod_name_id : String)
    (managed_mod : ManagedMod) : Storage :=
  ⟨aset game_name_id
    (aset mod_name_id managed_mod ((alookup game_name_id s.games).getD []))
    s.games⟩

/-! ## Storage manager (src/storage/manager.py)

The manager's mutable state is its in-memory `_storage` together with the
parsed value of the storage.json document written by the most recent
`_save_to_file` (serialization is modelled by the identity on parsed
values; `model_dump_json` is injective on the states the manager holds). -/

structure ModStorageManager where
  storage : Storage
  disk : Storage
deriving DecidableEq, Repr

/-- `ModStorageManager.__init__` (lines 47-49): store the given Storage and
immediately `_save_to_file()`. -/
def ModStorageManager.init (s : Storage) : ModStorageManager :=
  ⟨s, s⟩

/-- `ModStorageManager.from_file`: parse storage.json when it exists, start
empty otherwise, then construct (which writes the file). -/
def ModStorageManager.from_file (file : Option Storage) : ModStorageManager :=
  .init (file.getD ⟨[]⟩)

/-- `ModStorageManager._verify_downloaded_mod`: drop the record unless the
file exists and its MD5 digest equals the recorded hash. -/
def verify_downloaded_mod (fs : FS) :
    Option DownloadedManagedMod → Option DownloadedManagedMod
  | none => none
  | some d =>
    if fs.isFile d.file_path then
      (if fs.md5 d.file_path = d.file_hash then some d else none)
    else none

/-- `ModStorageManager._verify_installed_mod`: drop the record unless every
installed path is a directory. -/
def verify_installed_mod (fs : FS) :
    Option InstalledManagedMod → Option InstalledManagedMod
  | none => none
  | some i => if i.all_paths_present fs then some i else none

/-- `ModStorageManager._validate_entry`: re-verify both sub-records. -/
def validate_entry (fs : FS) (m : ManagedMod) : ManagedMod :=
  { downloaded_mod := verify_downloaded_mod fs m.downloaded_mod,
    installed_mod := verify_installed_mod fs m.installed_mod }

/-- The inner loop of `ModStorageManager.validate` for one game: for every
mod of the game, in dict order (the multiprocessing pool's `map` preserves
input order), write the validated entry into the accumulator when it still
contains info. -/
def validateModsGo (fs : FS) (game_name_id : String) :
    Storage → List (String × ManagedMod) → Storage
  | acc, [] => acc
  | acc, mm :: rest =>
    let verified := validate_entry fs mm.2
    validateModsGo fs game_name_id
      (if verified.contains_info then acc.write_managed_mod game_name_id mm.1 verified
       else acc)
      rest

/-- The outer loop of `ModStorageManager.validate` over the games map. -/
def validateGamesGo (fs : FS) :
    Storage → List (String × List (String × ManagedMod)) → Storage
  | acc, [] => acc
  | acc, gm :: rest => validateGamesGo fs (validateModsGo fs gm.1 acc gm.2) rest

/-- `ModStorageManager.validate` (lines 63-74): rebuild a fresh Storage by
iterating every game and mod in order, writing each validated entry that
still contains info.  The in-memory storage is replaced; nothing is written
to disk here. -/
def validate_storage (fs : FS) (s : Storage) : Storage :=
  validateGamesGo fs ⟨[]⟩ s.games

/-- `ModStorageManager.validate` as a state transition of the manager: only
`self._storage` is replaced; `_save_to_file` is not called. -/
def ModStorageManager.validate (fs : FS) (m : ModStorageManager) : ModStorageManager :=
  { m with storage := validate_storage fs m.storage }

/-- `ModStorageManager.needs_download` (lines 76-80). -/
def ModStorageManager.needs_download (fs : FS) (m : ModStorageManager)
    (game_name_id mod_name_id : String) (mod_file_id : Int) : Bool :=
  match m.storage.read_managed_mod game_name_id mod_name_id with
  | none => true
  | some mm =>
    !mm.has_mod_file_installed fs mod_file_id && !mm.has_mod_file_downloaded mod_file_id

/-- `ModStorageManager.needs_installation` (lines 138-143). -/
def ModStorageManager.needs_installation (fs : FS) (m : ModStorageManager)
    (game_name_id mod_name_id : String) (mod_file_id : Int) : Bool :=
  match m.storage.read_managed_mod game_name_id mod_name_id with
  | none => false
  | some mm => !mm.has_mod_file_installed fs mod_file_id

/-- The DownloadedManagedMod built for one Ok download result inside
`update_downloaded_mods`: the task's mod-file id and destination path, and
the MD5 digest of the file now on disk at that path. -/
def downloadRecordOf (fs : FS) (r : DownloadResult) : DownloadedManagedMod :=
  { mod_file_id := r.task.mod_file.id,
    file_path := r.task.download_file_path,
    file_hash := fs.md5 r.task.download_file_path }

/-- The body of the `update_downloaded_mods` loop for one Ok result: read
the managed mod, create it from the download record if absent or replace
its `downloaded_mod` field if present, and write it back. -/
def applyDownloadResult (fs : FS) (s : Storage) (r : DownloadResult) : Storage :=
  let record := downloadRecordOf fs r
  let updated :=
    match s.read_managed_mod r.task.game.name_id r.task.mod.name_id with
    | none => { downloaded_mod := some record : ManagedMod }
    | some mm => { mm with downloaded_mod := some record }
  s.write_managed_mod r.task.game.name_id r.task.mod.name_id updated

/-- `ModStorageManager.update_downloaded_mods` (lines 82-107): walk the
results in order; raise `StorageUpdateException.for_download_update` at the
first non-Ok result (leaving the file untouched); after the loop,
`_save_to_file()`.  The returned state pairs the manager after the call
with the exception, if one was raised. -/
def ModStorageManager.update_downloaded_mods (fs : FS) (m : ModStorageManager) :
    List DownloadResult → ModStorageManager × Option PyErr
  | [] => ({ m with disk := m.storage }, none)
  | r :: rest =>
    if r.is_ok then
      ModStorageManager.update_downloaded_mods fs
        { m with storage := applyDownloadResult fs m.storage r } rest
    else (m, some (.storageUpdateDownload r))

/-- `ModStorageManager.update_installed_mods` (lines 145-170): raise
`StorageUpdateException.for_installation_update` at the first non-Ok
result; for an Ok result the loop body evaluates
`installation_result.task.game_name_id`, but the InstallationTask dataclass
(src/installer/task.py) declares no attribute of that name, so the access
raises AttributeError; `_save_to_file()` is reached only when the whole
batch was processed, i.e. only for the empty batch. -/
def ModStorageManager.update_installed_mods (m : ModStorageManager) :
    List InstallationResult → ModStorageManager × Option PyErr
  | [] => ({ m with disk := m.storage }, none)
  | r :: _rest =>
    if r.is_ok then (m, some (.attributeError "game_name_id"))
    else (m, some (.storageUpdateInstallation r))

/-- `ModStorageManager.remove_unsubscribed_mods` (lines 172-192): the first
statement of the body evaluates
`self._storage.get_managed_mods_for_game(game_name_id)`.  The Storage class
does not define that attribute (`Storage.methodNames`), so the lookup
raises AttributeError before any set difference is computed, any file is
deleted, or anything is saved; the surrounding `except KeyError` does not
catch it.  Had the attribute existed, the dead first branch would carry the
pruning logic. -/
def ModStorageManager.remove_unsubscribed_mods (m : ModStorageManager)
    (game_name_id : String) (mod_subscriptions : List ModWithModfile) :
    ModStorageManager × List String × Except PyErr (List String) :=
  if Storage.methodNames.contains "get_managed_mods_for_game" then
    -- unreachable: kept only to document the intended computation
    (m, [], .ok ((alookup game_name_id m.storage.games).getD []
      |>.map Prod.fst
      |>.filter (fun k => !(mod_subscriptions.map ModWithModfile.name_id).contains k)))
  else
    (m, [], .error (.attributeError "get_managed_mods_for_game"))

/-- `ModStorageManager.generate_mod_install_tasks` (lines 109-136), inner
loop over the subscribed mods. For each mod: resolve the live mod-file id
for the platform (StopIteration if the platform is absent), skip mods with
no managed entry (KeyError), and for a mod whose live id is downloaded but
not installed, call
`InstallationTask(downloaded_path=..., game_name_id=..., mod_name_id=...,
mod_file_id=...)`.  The dataclass constructor accepts only the keywords in
`InstallationTask.initKeywords`, so the keyword `game_name_id` raises
TypeError. -/
def generateTasksLoop (fs : FS) (managed_mods : List (String × ManagedMod))
    (game_name_id : String) (platform : TargetPlatform) :
    List ModWithModfile → Except PyErr (List Unit)
  | [] => .ok []
  | mod :: rest =>
    match mod.modfile_live platform with
    | none => .error .stopIteration
    | some mod_file_id =>
      match alookup mod.name_id managed_mods with
      | none => generateTasksLoop fs managed_mods game_name_id platform rest
      | some managed_mod =>
        if managed_mod.has_mod_file_downloaded mod_file_id &&
            !managed_mod.has_mod_file_installed fs mod_file_id then
          if InstallationTask.initKeywords.contains "game_name_id" then
            -- dead: the dataclass does not accept this keyword
            (generateTasksLoop fs managed_mods game_name_id platform rest).map (() :: ·)
          else .error (.typeError "game_name_id")
        else generateTasksLoop fs managed_mods game_name_id platform rest

/-- `ModStorageManager.generate_mod_install_tasks`: an absent game key
yields the empty task list; otherwise run the loop. -/
def ModStorageManager.generate_mod_install_tasks (fs : FS) (m : ModStorageManager)
    (game : Game) (mods : List ModWithModfile) (platform : TargetPlatform) :
    Except PyErr (List Unit) :=
  match alookup game.name_id m.storage.games with
  | none => .ok []
  | some managed_mods => generateTasksLoop fs managed_mods game.name_id platform mods

/-! ## Download pipeline (src/downloader_client/client.py)

One task's interaction with the network (the streaming GET issued by
`DownloaderClient._download_task`, lines 16-39) either consumes the body
fully, yielding the declared total byte count, or raises somewhere inside
the `try` block (`raise_for_status`, transport failure, interrupted
stream).  The environment maps each task to its outcome; tasks are
independent, which is what `asyncio.gather` relies on. -/

inductive NetOutcome where
  | success (total_bytes : Int)
  | failure (reason : String)
deriving DecidableEq, Repr

/-- `DownloaderClient._download_task`: on success return
`DownloadResult.result_ok(task, total)`; any exception inside the `try` is
caught and returned as `DownloadResult.result_error(task, e)`. -/
def download_task (net : DownloadTask → NetOutcome) (t : DownloadTask) : DownloadResult :=
  match net t with
  | .success n => ⟨t, .ok n⟩
  | .failure e => ⟨t, .error e⟩

/-- `DownloaderClient.download` (lines 41-56): empty task list short-circuits
to `[]`; otherwise every task is launched and `asyncio.gather` returns the
results in task order, one per task. -/
def DownloaderClient.download (net : DownloadTask → NetOutcome)
    (tasks : List DownloadTask) : List DownloadResult :=
  if tasks.isEmpty then [] else tasks.map (download_task net)

/-! ## Install pipeline (src/installer/installer.py)

The extracted archive is a directory tree.  Each node records whether the
directory directly contains the sentinel file pallet.json
(`ModInstaller._PALLET_FILE`) and its child subdirectories in iteration
order (`p.iterdir()` filtered to directories).  `DirTree` and `Forest` are
mutually inductive so that the traversal functions compute by structural
recursion. -/

mutual
inductive DirTree where
  | node (hasPallet : Bool) (children : Forest)
deriving Repr
inductive Forest where
  | nil
  | cons (name : String) (tree : DirTree) (rest : Forest)
deriving Repr
end

mutual
/-- `ModInstaller._locate_possible_content_folders` (lines 52-62): a
directory that directly contains the sentinel is returned by itself and is
not descended into; otherwise the recursive results over the child
directories are flattened in iteration order.  Paths are relative to the
extraction root, as lists of name segments. -/
def locateContentFolders : DirTree → List (List String)
  | .node true _ => [[]]
  | .node false cs => locateForest cs
def locateForest : Forest → List (List String)
  | .nil => []
  | .cons n c rest =>
    (locateContentFolders c).map (fun p => n :: p) ++ locateForest rest
end

mutual
/-- Spec-side predicate (order-free): `p` names a directory of the tree
that directly contains the sentinel file while no ancestor directory within
the tree — the extraction root included — contains it. -/
def isCandidate : DirTree → List String → Bool
  | .node b _, [] => b
  | .node b cs, s :: p => !b && isCandidateIn cs s p
def isCandidateIn : Forest → String → List String → Bool
  | .nil, _, _ => false
  | .cons n c rest, s, p =>
    (decide (n = s) && isCandidate c p) || isCandidateIn rest s p
end

/-- The child-directory names of a forest, in iteration order. -/
def forestNames : Forest → List String
  | .nil => []
  | .cons n _ rest => n :: forestNames rest

mutual
/-- Well-formedness of an extracted tree as a filesystem: sibling
directories have pairwise distinct names. -/
def wfTree : DirTree → Bool
  | .node _ cs => wfForest cs
def wfForest : Forest → Bool
  | .nil => true
  | .cons n c rest =>
    !(forestNames rest).contains n && wfTree c && wfForest rest
end

/-- `ModInstaller._PLATFORM_KEYWORDS`. -/
def PLATFORM_KEYWORDS : List String := ["win", "pc"]

/-- `ModInstaller._BANNED_PLATFORM_KEYWORDS`. -/
def BANNED_PLATFORM_KEYWORDS : List String := ["quest", "oculus", "android"]

/-- Contiguous-substring test on character lists (Python's `in` on str). -/
def charsContain (needle : List Char) : List Char → Bool
  | [] => needle.isEmpty
  | c :: rest => needle.isPrefixOf (c :: rest) || charsContain needle rest

/-- `ModInstaller._contains_keyword`: some keyword occurs as a substring of
the lower-cased string (`s.lower()` modelled characterwise, which agrees
with Python on the ASCII names involved; the keywords are lowercase). -/
def contains_keyword (s : String) (keywords : List String) : Bool :=
  keywords.any (fun k => charsContain k.toList (s.toList.map Char.toLower))

/-- `str(p.relative_to(root))` for a candidate path, segments joined by the
path separator. -/
def relPathStr (p : List String) : String :=
  String.intercalate "/" p

/-- The predicate closed over by `ModInstaller._attempt_platform_partition`
(lines 68-78): retain on an allowed keyword, exclude on a banned keyword,
raise ValueError when the relative path contains neither. -/
def platformPredicate (p : List String) : Except Unit Bool :=
  if contains_keyword (relPathStr p) PLATFORM_KEYWORDS then .ok true
  else if contains_keyword (relPathStr p) BANNED_PLATFORM_KEYWORDS then .ok false
  else .error ()

/-- `binary_partition` (src/utils/containers.py) driven by a predicate that
may raise: elements are classified in order into the accepted and ignored
lists; a raise from the predicate propagates out of the whole partition. -/
def binaryPartitionE {α : Type} (pred : α → Except Unit Bool) :
    List α → Except Unit (List α × List α)
  | [] => .ok ([], [])
  | x :: rest =>
    match pred x with
    | .error e => .error e
    | .ok true => (binaryPartitionE pred rest).map (fun pr => (x :: pr.1, pr.2))
    | .ok false => (binaryPartitionE pred rest).map (fun pr => (pr.1, x :: pr.2))

/-- `ModInstaller._get_selected_content_folders` (lines 80-105): a single
candidate is selected outright; zero candidates raise NO_PALLET_FOUND;
with several candidates the keyword partition is attempted, its accepted
side is returned on success (however many elements it has), and on
ValueError all candidates are accepted. -/
def getSelectedContentFolders (t : DirTree) : Except InstallationResultFailReason (List (List String)) :=
  let possible := locateContentFolders t
  if possible.length = 1 then .ok possible
  else if possible.length = 0 then .error .no_pallet_found
  else
    match binaryPartitionE platformPredicate possible with
    | .ok pr => .ok pr.1
    | .error _ => .ok possible

/-- `content.name` for a selected content folder: its last path segment,
or the extraction directory's own name (the archive stem) for the root. -/
def contentName (stem : String) (p : List String) : String :=
  p.getLastD stem

/-- `ModInstaller._install_mod` (lines 128-133) on an already-extracted
tree: copy every selected content folder into the mods directory under its
own name; a ModInstallerException from the selection surfaces as the
failure reason (`extract_and_install`, lines 36-42). -/
def install_mod (stem : String) (t : DirTree) :
    Except InstallationResultFailReason (List String) :=
  (getSelectedContentFolders t).map (fun paths => paths.map (contentName stem))

/-! ## Association list lemmas -/

theorem alookup_aset {V : Type} (k k' : String) (v : V) (l : List (String × V)) :
    alookup k' (aset k v l) = if k = k' then some v else alookup k' l := by
  induction l with
  | nil => simp [aset, alookup]
  | cons hd tl ih =>
    by_cases h1 : hd.1 = k
    · by_cases h2 : k = k'
      · simp [aset, alookup, h1, h2]
      · have h3 : ¬ hd.1 = k' := fun hh => h2 (h1 ▸ hh)
        simp [aset, alookup, h1, h2, h3]
    · by_cases h2 : hd.1 = k'
      · have h3 : ¬ k = k' := fun hk => h1 (h2.trans hk.symm)
        have h4 : ¬ k' = k := fun hk => h3 hk.symm
        simp [aset, alookup, h1, h2, h3, h4]
      · simp [aset, alookup, h1, h2, ih]

/-- Reading after writing: the written pair is visible at its own key and
nothing else changes. -/
theorem read_write_managed_mod (s : Storage) (g mo g' mo' : String) (mm : ManagedMod) :
    (s.write_managed_mod g mo mm).read_managed_mod g' mo'
      = if g = g' ∧ mo = mo' then some mm else s.read_managed_mod g' mo' := by
  unfold Storage.write_managed_mod Storage.read_managed_mod
  rw [alookup_aset]
  by_cases hg : g = g'
  · subst hg
    simp only [if_true, true_and]
    show alookup mo' (aset mo mm ((alookup g s.games).getD [])) = _
    rw [alookup_aset]
    by_cases hmo : mo = mo'
    · simp [hmo]
    · simp only [hmo, if_false]
      cases halo : alookup g s.games <;> simp [alookup]
  · simp [hg]

/-! ## Fixtures used by several concrete evaluations -/

/-- A filesystem with no files and no directories. -/
def fsNone : FS := ⟨fun _ => false, fun _ => false, fun _ => "missing"⟩

/-- A filesystem on which every path is a directory (and none a file). -/
def fsAllDirs : FS := ⟨fun _ => false, fun _ => true, fun _ => "dir"⟩

/-- A managed mod recorded as downloaded (mod-file 10) and not installed. -/
def sampleDownloadedMod : ManagedMod :=
  { downloaded_mod := some ⟨10, "downloads/a.zip", "abc"⟩ }

/-- A one-game, one-mod storage document. -/
def sampleStorage : Storage :=
  ⟨[("bonelab", [("some-mod", sampleDownloadedMod)])]⟩

/-! ## Claim C2 -/

/-- C2: `remove_unsubscribed_mods` never prunes anything: its first
statement looks up the attribute `get_managed_mods_for_game` on the
Storage instance, which src/storage/models.py does not define, so every
call — in particular any call on a state that has managed mods for the
game — raises AttributeError, deletes no file, removes no entry and
persists nothing.  This contradicts the claimed pruning behaviour. -/
theorem c2_remove_unsubscribed_always_raises (m : ModStorageManager) (g : String)
    (subs : List ModWithModfile) :
    ModStorageManager.remove_unsubscribed_mods m g subs
      = (m, [], .error (.attributeError "get_managed_mods_for_game")) := rfl

/-! ## Claim C3 -/

/-- C3 counterexample: load the one-entry document on a filesystem where
its recorded archive is gone, then validate.  Validation drops the entry
from memory, but the on-disk document still holds the pre-validation
state — it does not equal the validated state, contradicting the claimed
immediate self-healing write-back. -/
theorem c3_counterexample :
    (ModStorageManager.validate fsNone (ModStorageManager.from_file (some sampleStorage))).disk
        = sampleStorage
    ∧ (ModStorageManager.validate fsNone (ModStorageManager.from_file (some sampleStorage))).storage
        = ⟨[]⟩
    ∧ (ModStorageManager.validate fsNone (ModStorageManager.from_file (some sampleStorage))).disk
        ≠ (ModStorageManager.validate fsNone (ModStorageManager.from_file (some sampleStorage))).storage := by
  refine ⟨rfl, rfl, ?_⟩
  decide

/-- C3 (amended): loading persists the loaded, pre-validation state
(`__init__` calls `_save_to_file`), `validate` replaces only the in-memory
state and writes nothing, and the validated state first reaches the
document at the next mutating operation (here: recording an empty download
batch). -/
theorem c3_validate_replaces_memory_but_not_disk (fs : FS) (file : Option Storage) :
    (ModStorageManager.validate fs (ModStorageManager.from_file file)).disk
        = (file.getD ⟨[]⟩)
    ∧ (ModStorageManager.validate fs (ModStorageManager.from_file file)).storage
        = validate_storage fs (file.getD ⟨[]⟩)
    ∧ (ModStorageManager.update_downloaded_mods fs
          (ModStorageManager.validate fs (ModStorageManager.from_file file)) []).1.disk
        = validate_storage fs (file.getD ⟨[]⟩) :=
  ⟨rfl, rfl, rfl⟩

/-! ## Claim C4 -/

/-- The game used by the concrete install-task generation runs. -/
def bonelabGame : Game := ⟨1, "bonelab"⟩

/-- A subscription whose live Windows mod-file id (10) matches the
recorded download in `sampleStorage` and is not recorded as installed. -/
def sampleSubscription : ModWithModfile := ⟨"some-mod", [(.windows, 10)]⟩

/-- C4: on a state where the subscribed mod "some-mod" has its live
mod-file id 10 recorded as downloaded and not installed — exactly the case
in which the claim promises an InstallationTask carrying the name ids —
`generate_mod_install_tasks` raises TypeError instead, because it invokes
the InstallationTask constructor with the keyword `game_name_id`, which
the dataclass in src/installer/task.py does not declare. -/
theorem c4_generate_install_tasks_raises_type_error :
    ModStorageManager.generate_mod_install_tasks fsNone
        (ModStorageManager.init sampleStorage) bonelabGame [sampleSubscription] .windows
      = .error (.typeError "game_name_id") := rfl

/-! ## Claim C5 -/

/-- Spec-side reading of "the modFileId is recorded as downloaded for that
mod": a managed record exists and `has_mod_file_downloaded` holds. -/
def specRecordedDownloaded (s : Storage) (g mo : String) (mod_file_id : Int) : Bool :=
  match s.read_managed_mod g mo with
  | none => false
  | some mm => mm.has_mod_file_downloaded mod_file_id

/-- Spec-side reading of "the modFileId is recorded as installed for that
mod": a managed record exists and `has_mod_file_installed` holds (which,
as in the code, also requires the installed paths to exist). -/
def specRecordedInstalled (fs : FS) (s : Storage) (g mo : String) (mod_file_id : Int) : Bool :=
  match s.read_managed_mod g mo with
  | none => false
  | some mm => mm.has_mod_file_installed fs mod_file_id

/-- C5: `needs_download` is true exactly when the mod-file id is neither
recorded as downloaded nor recorded as installed for the pair (so a
recorded id differing from the live id still needs downloading), and when
the id is recorded as installed both `needs_download` and
`needs_installation` are false. -/
theorem c5_needs_download_characterization (fs : FS) (m : ModStorageManager)
    (g mo : String) (mod_file_id : Int) :
    (ModStorageManager.needs_download fs m g mo mod_file_id
        = !(specRecordedDownloaded m.storage g mo mod_file_id
            || specRecordedInstalled fs m.storage g mo mod_file_id))
    ∧ (specRecordedInstalled fs m.storage g mo mod_file_id = true →
        ModStorageManager.needs_download fs m g mo mod_file_id = false
        ∧ ModStorageManager.needs_installation fs m g mo mod_file_id = false) := by
  unfold ModStorageManager.needs_download ModStorageManager.needs_installation
    specRecordedDownloaded specRecordedInstalled
  cases hread : m.storage.read_managed_mod g mo with
  | none => simp
  | some mm =>
    constructor
    · cases hd : mm.has_mod_file_downloaded mod_file_id <;>
        cases hi : mm.has_mod_file_installed fs mod_file_id <;> simp [hd, hi]
    · intro hinst
      have hinst2 : mm.has_mod_file_installed fs mod_file_id = true := hinst
      simp [hinst2]

/-- A state whose only entry records mod-file 5 as installed at a path that
`fsAllDirs` confirms to be a directory. -/
def installedOnlyStorage : Storage :=
  ⟨[("bonelab", [("some-mod", { installed_mod := some ⟨5, ["mods/X"]⟩ })])]⟩

/-- C5 witness: with mod-file 5 recorded as installed (paths present),
neither a download nor an installation is needed. -/
theorem c5_witness :
    ModStorageManager.needs_download fsAllDirs (ModStorageManager.init installedOnlyStorage)
        "bonelab" "some-mod" 5 = false
    ∧ ModStorageManager.needs_installation fsAllDirs (ModStorageManager.init installedOnlyStorage)
        "bonelab" "some-mod" 5 = false :=
  (c5_needs_download_characterization fsAllDirs (ModStorageManager.init installedOnlyStorage)
    "bonelab" "some-mod" 5).2 (by decide)

/-! ## Claim C10 -/

/-- A download batch containing a non-Ok result makes the loop raise
before `_save_to_file` is reached, so the document is untouched. -/
theorem update_downloaded_mods_rejected (fs : FS) (dres : List DownloadResult) :
    ∀ m : ModStorageManager, dres.any (fun r => !r.is_ok) = true →
      (ModStorageManager.update_downloaded_mods fs m dres).2.isSome = true
      ∧ (ModStorageManager.update_downloaded_mods fs m dres).1.disk = m.disk := by
  induction dres with
  | nil => intro m hd; simp at hd
  | cons r rest ih =>
    intro m hd
    by_cases hok : r.is_ok
    · have hrest : rest.any (fun r => !r.is_ok) = true := by simpa [hok] using hd
      simpa [ModStorageManager.update_downloaded_mods, hok] using
        ih { m with storage := applyDownloadResult fs m.storage r } hrest
    · simp [ModStorageManager.update_downloaded_mods, hok]

/-- An installation batch containing a non-Ok result never reaches
`_save_to_file` either: a leading non-Ok raises StorageUpdateException, a
leading Ok raises AttributeError on `task.game_name_id`. -/
theorem update_installed_mods_rejected (ires : List InstallationResult)
    (md : ModStorageManager) (hi : ires.any (fun r => !r.is_ok) = true) :
    (ModStorageManager.update_installed_mods md ires).2.isSome = true
    ∧ (ModStorageManager.update_installed_mods md ires).1.disk = md.disk := by
  cases ires with
  | nil => simp at hi
  | cons r rest =>
    by_cases hok : r.is_ok <;>
      simp [ModStorageManager.update_installed_mods, hok]

/-- C10: for both `update_downloaded_mods` and `update_installed_mods`, a
batch containing at least one non-Ok result makes the call raise, and the
on-disk document is left exactly as it was before the call — the single
file write sits after the whole loop, so partial in-memory updates are
never persisted. -/
theorem c10_rejected_batches_never_persist (fs : FS) (m md : ModStorageManager)
    (dres : List DownloadResult) (ires : List InstallationResult)
    (hd : dres.any (fun r => !r.is_ok) = true)
    (hi : ires.any (fun r => !r.is_ok) = true) :
    ((ModStorageManager.update_downloaded_mods fs m dres).2.isSome = true
      ∧ (ModStorageManager.update_downloaded_mods fs m dres).1.disk = m.disk)
    ∧ ((ModStorageManager.update_installed_mods md ires).2.isSome = true
      ∧ (ModStorageManager.update_installed_mods md ires).1.disk = md.disk) :=
  ⟨update_downloaded_mods_rejected fs dres m hd,
   update_installed_mods_rejected ires md hi⟩

/-- A download task used by concrete runs. -/
def wTask1 : DownloadTask :=
  ⟨"downloads/a.zip", "http://a", bonelabGame, ⟨2, "some-mod"⟩, ⟨10, 100⟩⟩

/-- A second, distinct download task. -/
def wTask2 : DownloadTask :=
  ⟨"downloads/b.zip", "http://b", bonelabGame, ⟨3, "other-mod"⟩, ⟨11, 200⟩⟩

/-- An installation task value (fields per the dataclass). -/
def wITask : InstallationTask :=
  ⟨"downloads/a.zip", bonelabGame, ⟨2, "some-mod"⟩, ⟨10, 100⟩⟩

/-- C10 witness: a one-Ok-one-Error download batch and a one-Error
installation batch are both rejected with the document untouched. -/
theorem c10_witness :
    ((ModStorageManager.update_downloaded_mods fsNone (ModStorageManager.init sampleStorage)
        [⟨wTask2, .ok 200⟩, ⟨wTask1, .error "connection reset"⟩]).2.isSome = true
      ∧ (ModStorageManager.update_downloaded_mods fsNone (ModStorageManager.init sampleStorage)
        [⟨wTask2, .ok 200⟩, ⟨wTask1, .error "connection reset"⟩]).1.disk
          = (ModStorageManager.init sampleStorage).disk)
    ∧ ((ModStorageManager.update_installed_mods (ModStorageManager.init sampleStorage)
        [⟨wITask, .fail .no_pallet_found⟩]).2.isSome = true
      ∧ (ModStorageManager.update_installed_mods (ModStorageManager.init sampleStorage)
        [⟨wITask, .fail .no_pallet_found⟩]).1.disk
          = (ModStorageManager.init sampleStorage).disk) :=
  c10_rejected_batches_never_persist fsNone
    (ModStorageManager.init sampleStorage) (ModStorageManager.init sampleStorage)
    [⟨wTask2, .ok 200⟩, ⟨wTask1, .error "connection reset"⟩]
    [⟨wITask, .fail .no_pallet_found⟩] (by decide) (by decide)

/-! ## Claim C7 -/

/-- The empty-batch short-circuit agrees with the general mapping form. -/
theorem download_eq_map (net : DownloadTask → NetOutcome) (tasks : List DownloadTask) :
    DownloaderClient.download net tasks = tasks.map (download_task net) := by
  cases tasks <;> rfl

/-- Every produced result is tagged with the task it was produced for. -/
theorem download_task_tag (net : DownloadTask → NetOutcome) (t : DownloadTask) :
    (download_task net t).task = t := by
  cases h : net t <;> simp [download_task, h]

/-- C7: the pipeline returns one result per task: the result list has the
tasks' length, the i-th result is tagged with the i-th task, a distinct
task appears in exactly one result, a failing network interaction for a
task becomes that task's Error result, and changing the network behaviour
of one task does not change the result produced for any other task. -/
theorem c7_download_results_isolated (net net' : DownloadTask → NetOutcome)
    (tasks : List DownloadTask) (i : Nat) (t u : DownloadTask) (e : String)
    (hnodup : tasks.Nodup) (ht : t ∈ tasks) (hu : tasks[i]? = some u)
    (hiso : ∀ v, v ≠ t → net v = net' v) :
    (DownloaderClient.download net tasks).length = tasks.length
    ∧ ((DownloaderClient.download net tasks)[i]?).map DownloadResult.task = some u
    ∧ ((DownloaderClient.download net tasks).filter
        (fun r => r.task == t)).length = 1
    ∧ (net u = .failure e →
        (DownloaderClient.download net tasks)[i]? = some ⟨u, .error e⟩)
    ∧ (u ≠ t →
        (DownloaderClient.download net tasks)[i]?
          = (DownloaderClient.download net' tasks)[i]?) := by
  rw [download_eq_map, download_eq_map]
  refine ⟨by simp, ?_, ?_, ?_, ?_⟩
  · simp [List.getElem?_map, hu, download_task_tag]
  · have hfix : (tasks.map (download_task net)).filter (fun r => r.task == t)
        = (tasks.filter (fun v => v == t)).map (download_task net) := by
      rw [List.filter_map]
      congr 1
      apply List.filter_congr
      intro v _
      simp [Function.comp, download_task_tag]
    rw [hfix, List.length_map]
    have hcount := List.count_eq_one_of_mem hnodup ht
    simpa [List.count, List.countP_eq_length_filter] using hcount
  · intro hfail
    simp [List.getElem?_map, hu, download_task, hfail]
  · intro hne
    have hnn : net u = net' u := hiso u hne
    simp [List.getElem?_map, hu, download_task, hnn]

/-- A network on which wTask1's stream fails and everything else succeeds. -/
def wNet : DownloadTask → NetOutcome :=
  fun t => if t == wTask1 then .failure "connection reset" else .success 200

/-- The same network except for wTask1's particular failure. -/
def wNetAlt : DownloadTask → NetOutcome :=
  fun t => if t == wTask1 then .failure "http 404" else .success 200

/-- C7 witness: on the two-task batch where wTask1's stream fails, the
pipeline yields two results, result 0 is tagged wTask1 and is wTask1's
Error result, and wTask1 appears in exactly one result. -/
theorem c7_witness :
    (DownloaderClient.download wNet [wTask1, wTask2]).length = [wTask1, wTask2].length
    ∧ ((DownloaderClient.download wNet [wTask1, wTask2])[0]?).map DownloadResult.task
        = some wTask1
    ∧ ((DownloaderClient.download wNet [wTask1, wTask2]).filter
        (fun r => r.task == wTask1)).length = 1
    ∧ (wNet wTask1 = .failure "connection reset" →
        (DownloaderClient.download wNet [wTask1, wTask2])[0]?
          = some ⟨wTask1, .error "connection reset"⟩)
    ∧ (wTask1 ≠ wTask1 →
        (DownloaderClient.download wNet [wTask1, wTask2])[0]?
          = (DownloaderClient.download wNetAlt [wTask1, wTask2])[0]?) :=
  c7_download_results_isolated wNet wNetAlt [wTask1, wTask2] 0 wTask1 wTask1
    "connection reset" (by decide) (by decide) (by decide)
    (fun v hv => by simp [wNet, wNetAlt, hv])

/-! ## Claim C6 -/

/-- Effect of one Ok result on reads: the touched key now holds the fresh
download record (its installed component untouched), every other key is
unchanged. -/
theorem read_applyDownloadResult (fs : FS) (s : Storage) (r : DownloadResult) (g mo : String) :
    (applyDownloadResult fs s r).read_managed_mod g mo
      = if r.task.game.name_id = g ∧ r.task.mod.name_id = mo then
          some { downloaded_mod := some (downloadRecordOf fs r),
                 installed_mod :=
                   (s.read_managed_mod g mo).bind ManagedMod.installed_mod }
        else s.read_managed_mod g mo := by
  unfold applyDownloadResult
  rw [read_write_managed_mod]
  by_cases hk : r.task.game.name_id = g ∧ r.task.mod.name_id = mo
  · obtain ⟨h1, h2⟩ := hk
    rw [if_pos ⟨h1, h2⟩, if_pos ⟨h1, h2⟩, h1, h2]
    cases hread : s.read_managed_mod g mo with
    | none => simp
    | some mm => simp
  · rw [if_neg hk, if_neg hk]

/-- One Ok result never changes the installed component of any key. -/
theorem applyDownloadResult_installed (fs : FS) (s : Storage) (r : DownloadResult)
    (g mo : String) :
    ((applyDownloadResult fs s r).read_managed_mod g mo).bind ManagedMod.installed_mod
      = (s.read_managed_mod g mo).bind ManagedMod.installed_mod := by
  rw [read_applyDownloadResult]
  by_cases hk : r.task.game.name_id = g ∧ r.task.mod.name_id = mo
  · rw [if_pos hk]
    cases (s.read_managed_mod g mo).bind ManagedMod.installed_mod <;> rfl
  · rw [if_neg hk]

/-- The results of a batch that target one (game, mod) key, in order. -/
def resultsFor (g mo : String) (results : List DownloadResult) : List DownloadResult :=
  results.filter (fun r => r.task.game.name_id == g && r.task.mod.name_id == mo)

/-- A batch with a non-Ok result raises the download-update exception
naming the first non-Ok result encountered. -/
theorem update_downloaded_mods_names_offender (fs : FS) (results : List DownloadResult) :
    ∀ (m : ModStorageManager) (r : DownloadResult),
      results.find? (fun x => !x.is_ok) = some r →
      (ModStorageManager.update_downloaded_mods fs m results).2
        = some (.storageUpdateDownload r) := by
  induction results with
  | nil => intro m r hfind; simp at hfind
  | cons r0 rest ih =>
    intro m r hfind
    by_cases hok : r0.is_ok
    · have hfind2 : rest.find? (fun x => !x.is_ok) = some r := by
        simpa [List.find?_cons, hok] using hfind
      simpa [ModStorageManager.update_downloaded_mods, hok] using
        ih { m with storage := applyDownloadResult fs m.storage r0 } r hfind2
    · have hr : r0 = r := by
        have := hfind
        simp [List.find?_cons, hok] at this
        exact this
      subst hr
      simp [ModStorageManager.update_downloaded_mods, hok]

/-- An all-Ok batch succeeds: the final state is persisted (disk equals
memory), and each key reads back the download record of the last result in
the batch that targeted it — the freshly hashed record replaces whatever
downloaded record was there before, while the installed component of the
entry survives — with untouched keys unchanged. -/
theorem update_downloaded_mods_ok_reads (fs : FS) (results : List DownloadResult)
    (g mo : String) :
    ∀ m : ModStorageManager, results.all DownloadResult.is_ok = true →
      (ModStorageManager.update_downloaded_mods fs m results).2 = none
      ∧ (ModStorageManager.update_downloaded_mods fs m results).1.disk
          = (ModStorageManager.update_downloaded_mods fs m results).1.storage
      ∧ (ModStorageManager.update_downloaded_mods fs m results).1.storage.read_managed_mod g mo
          = match (resultsFor g mo results).getLast? with
            | some rl =>
                some { downloaded_mod := some (downloadRecordOf fs rl),
                       installed_mod :=
                         (m.storage.read_managed_mod g mo).bind ManagedMod.installed_mod }
            | none => m.storage.read_managed_mod g mo := by
  induction results with
  | nil =>
    intro m _
    refine ⟨rfl, rfl, ?_⟩
    simp [resultsFor, ModStorageManager.update_downloaded_mods]
  | cons r rest ih =>
    intro m hall
    rw [List.all_cons, Bool.and_eq_true] at hall
    obtain ⟨hok, hrest⟩ := hall
    have hstep :
        ModStorageManager.update_downloaded_mods fs m (r :: rest)
          = ModStorageManager.update_downloaded_mods fs
              { m with storage := applyDownloadResult fs m.storage r } rest := by
      simp [ModStorageManager.update_downloaded_mods, hok]
    obtain ⟨ih1, ih2, ih3⟩ := ih { m with storage := applyDownloadResult fs m.storage r } hrest
    refine ⟨hstep ▸ ih1, hstep ▸ ih2, ?_⟩
    rw [hstep, ih3]
    have hins := applyDownloadResult_installed fs m.storage r g mo
    have hfilter :
        resultsFor g mo (r :: rest)
          = if r.task.game.name_id == g && r.task.mod.name_id == mo then
              r :: resultsFor g mo rest
            else resultsFor g mo rest := by
      simp [resultsFor, List.filter_cons]
    by_cases hkey : r.task.game.name_id = g ∧ r.task.mod.name_id = mo
    · have hkeyb : (r.task.game.name_id == g && r.task.mod.name_id == mo) = true := by
        simp [hkey.1, hkey.2]
      rw [hfilter, if_pos hkeyb]
      cases hrl : resultsFor g mo rest with
      | nil =>
        simp only [hrl, List.getLast?_nil, List.getLast?_singleton]
        simp [read_applyDownloadResult, hkey]
      | cons a as =>
        simp only [hrl, List.getLast?_cons_cons]
        obtain ⟨rl, hrl2⟩ : ∃ rl, (a :: as).getLast? = some rl := by
          cases hl : (a :: as).getLast? with
          | none => exact absurd (List.getLast?_eq_none_iff.mp hl) (by simp)
          | some x => exact ⟨x, rfl⟩
        rw [hrl2]
        simp only at hins ⊢
        rw [hins]
    · have hkeyb : ¬ (r.task.game.name_id == g && r.task.mod.name_id == mo) = true := by
        rcases not_and_or.mp hkey with h | h <;> simp [h]

      rw [hfilter, if_neg hkeyb]
      cases hrl : resultsFor g mo rest with
      | nil =>
        simp only [hrl, List.getLast?_nil]
        simp [read_applyDownloadResult, hkey]
      | cons a as =>
        obtain ⟨rl, hrl2⟩ : ∃ rl, (a :: as).getLast? = some rl := by
          cases hl : (a :: as).getLast? with
          | none => exact absurd (List.getLast?_eq_none_iff.mp hl) (by simp)
          | some x => exact ⟨x, rfl⟩
        simp only [hrl, hrl2]
        simp only at hins ⊢
        rw [hins]

/-- C6: a batch given to `update_downloaded_mods` that contains an Error
result raises a StorageUpdateException naming the (first) offending result;
an all-Ok batch computes the MD5 hash of each downloaded file, upserts the
DownloadedManagedMod record — replacing any prior downloaded record, even
one for a different mod-file id (last-downloaded-wins), while preserving
the entry's installed component — and persists the storage. -/
theorem c6_update_downloaded_mods (fs : FS) (m : ModStorageManager)
    (results : List DownloadResult) (g mo : String) (r : DownloadResult) :
    (results.find? (fun x => !x.is_ok) = some r →
      (ModStorageManager.update_downloaded_mods fs m results).2
        = some (.storageUpdateDownload r))
    ∧ (results.all DownloadResult.is_ok = true →
      (ModStorageManager.update_downloaded_mods fs m results).2 = none
      ∧ (ModStorageManager.update_downloaded_mods fs m results).1.disk
          = (ModStorageManager.update_downloaded_mods fs m results).1.storage
      ∧ (ModStorageManager.update_downloaded_mods fs m results).1.storage.read_managed_mod g mo
          = match (resultsFor g mo results).getLast? with
            | some rl =>
                some { downloaded_mod := some (downloadRecordOf fs rl),
                       installed_mod :=
                         (m.storage.read_managed_mod g mo).bind ManagedMod.installed_mod }
            | none => m.storage.read_managed_mod g mo) :=
  ⟨update_downloaded_mods_names_offender fs results m r,
   update_downloaded_mods_ok_reads fs results g mo m⟩

/-- A filesystem whose hash function tags the path, making the computed
hashes visible in results. -/
def fsTagging : FS := ⟨fun _ => true, fun _ => true, fun p => String.append "md5-" p⟩

/-- A storage with an old downloaded record (mod-file 3) and an installed
record for the same entry. -/
def oldStorage : Storage :=
  ⟨[("bonelab",
      [("some-mod",
        ⟨some ⟨3, "downloads/old.zip", "oldhash"⟩, some ⟨3, ["mods/old"]⟩⟩)])]⟩

/-- A third download task for the same mod, mod-file 12. -/
def wTask3 : DownloadTask :=
  ⟨"downloads/c.zip", "http://c", bonelabGame, ⟨2, "some-mod"⟩, ⟨12, 300⟩⟩

/-- C6 witness: recording two Ok downloads for the same mod (mod-files 10
then 12) on an entry that previously held mod-file 3: the call succeeds,
memory is persisted, and the entry now holds the last record — mod-file 12
with the freshly computed hash — while its installed component survives. -/
theorem c6_witness :
    (ModStorageManager.update_downloaded_mods fsTagging (ModStorageManager.init oldStorage)
        [⟨wTask1, .ok 100⟩, ⟨wTask3, .ok 300⟩]).2 = none
    ∧ (ModStorageManager.update_downloaded_mods fsTagging (ModStorageManager.init oldStorage)
        [⟨wTask1, .ok 100⟩, ⟨wTask3, .ok 300⟩]).1.disk
        = (ModStorageManager.update_downloaded_mods fsTagging (ModStorageManager.init oldStorage)
        [⟨wTask1, .ok 100⟩, ⟨wTask3, .ok 300⟩]).1.storage
    ∧ (ModStorageManager.update_downloaded_mods fsTagging (ModStorageManager.init oldStorage)
        [⟨wTask1, .ok 100⟩, ⟨wTask3, .ok 300⟩]).1.storage.read_managed_mod "bonelab" "some-mod"
        = some { downloaded_mod := some ⟨12, "downloads/c.zip", "md5-downloads/c.zip"⟩,
                 installed_mod := some ⟨3, ["mods/old"]⟩ } := by
  have h := (c6_update_downloaded_mods fsTagging (ModStorageManager.init oldStorage)
    [⟨wTask1, .ok 100⟩, ⟨wTask3, .ok 300⟩] "bonelab" "some-mod"
    ⟨wTask1, .ok 100⟩).2 (by decide)
  exact h

/-! ## Claim C1 -/

/-- The candidate's relative path mentions an allowed platform keyword. -/
def pathAccepted (p : List String) : Bool :=
  contains_keyword (relPathStr p) PLATFORM_KEYWORDS

/-- The candidate's relative path mentions an allowed or a banned keyword
(the partition predicate returns without raising). -/
def pathHasKeyword (p : List String) : Bool :=
  contains_keyword (relPathStr p) PLATFORM_KEYWORDS
    || contains_keyword (relPathStr p) BANNED_PLATFORM_KEYWORDS

/-- When every candidate carries a keyword, the partition succeeds and
accepts exactly the allowed-keyword candidates. -/
theorem binaryPartitionE_all_keyword (l : List (List String))
    (hall : l.all pathHasKeyword = true) :
    binaryPartitionE platformPredicate l
      = .ok (l.filter pathAccepted, l.filter (fun p => !pathAccepted p)) := by
  induction l with
  | nil => rfl
  | cons x rest ih =>
    rw [List.all_cons, Bool.and_eq_true] at hall
    obtain ⟨hx, hrest⟩ := hall
    by_cases ha : pathAccepted x
    · have hpred : platformPredicate x = .ok true := by
        unfold platformPredicate
        rw [if_pos (by simpa [pathAccepted] using ha)]
      simp [binaryPartitionE, hpred, ih hrest, List.filter_cons, ha, Except.map]
    · have hbanned : contains_keyword (relPathStr x) BANNED_PLATFORM_KEYWORDS = true := by
        unfold pathHasKeyword at hx
        rcases Bool.or_eq_true_iff.mp hx with h | h
        · exact absurd h (by simpa [pathAccepted] using ha)
        · exact h
      have hpred : platformPredicate x = .ok false := by
        unfold platformPredicate
        rw [if_neg (by simpa [pathAccepted] using ha), if_pos hbanned]
      simp [binaryPartitionE, hpred, ih hrest, List.filter_cons, ha, Except.map]

/-- When some candidate carries neither kind of keyword, the partition
raises ValueError. -/
theorem binaryPartitionE_missing_keyword (l : List (List String))
    (hsome : l.all pathHasKeyword = false) :
    binaryPartitionE platformPredicate l = .error () := by
  induction l with
  | nil => simp at hsome
  | cons x rest ih =>
    by_cases hx : pathHasKeyword x
    · have hrest : rest.all pathHasKeyword = false := by
        rw [List.all_cons, hx, Bool.true_and] at hsome
        exact hsome
      unfold pathHasKeyword at hx
      rcases Bool.or_eq_true_iff.mp hx with h | h
      · have hpred : platformPredicate x = .ok true := by
          unfold platformPredicate; rw [if_pos h]
        simp [binaryPartitionE, hpred, ih hrest, Except.map]
      · by_cases h2 : contains_keyword (relPathStr x) PLATFORM_KEYWORDS
        · have hpred : platformPredicate x = .ok true := by
            unfold platformPredicate; rw [if_pos h2]
          simp [binaryPartitionE, hpred, ih hrest, Except.map]
        · have hpred : platformPredicate x = .ok false := by
            unfold platformPredicate; rw [if_neg h2, if_pos h]
          simp [binaryPartitionE, hpred, ih hrest, Except.map]
    · have hx2 : pathHasKeyword x = false := Bool.eq_false_iff.mpr hx
      unfold pathHasKeyword at hx2
      rw [Bool.or_eq_false_iff] at hx2
      have hpred : platformPredicate x = .error () := by
        unfold platformPredicate
        rw [if_neg (by simp [hx2.1]), if_neg (by simp [hx2.2])]
      simp [binaryPartitionE, hpred, Except.map]

/-- C1 (amended): with two or more candidate folders the resolution never
fails.  If every candidate's relative path carries an allowed or banned
keyword, exactly the allowed-keyword candidates are returned — even when
that is none of them or several; otherwise the partition's ValueError is
swallowed and all candidates are accepted.  The failure reasons
NoFilteredPalletFound and TooManyFilteredPalletsFound are never produced
for any tree. -/
theorem c1_filtering_never_fails (t tAux : DirTree)
    (hlen : 2 ≤ (locateContentFolders t).length) :
    (getSelectedContentFolders t
        = if (locateContentFolders t).all pathHasKeyword then
            .ok ((locateContentFolders t).filter pathAccepted)
          else .ok (locateContentFolders t))
    ∧ getSelectedContentFolders tAux ≠ .error .no_filtered_pallet_found
    ∧ getSelectedContentFolders tAux ≠ .error .too_many_filtered_pallets_found := by
  refine ⟨?_, ?_, ?_⟩
  · have h1 : ¬ (locateContentFolders t).length = 1 := by omega
    have h0 : ¬ (locateContentFolders t).length = 0 := by omega
    unfold getSelectedContentFolders
    by_cases hall : (locateContentFolders t).all pathHasKeyword
    · rw [if_pos hall]
      simp [h1, h0, binaryPartitionE_all_keyword _ hall]
    · rw [if_neg hall]
      simp [h1, h0,
        binaryPartitionE_missing_keyword _ (Bool.eq_false_iff.mpr hall)]
  · unfold getSelectedContentFolders
    by_cases h1 : (locateContentFolders tAux).length = 1
    · simp [h1]
    · by_cases h0 : (locateContentFolders tAux).length = 0
      · simp [h1, h0]
      · cases hb : binaryPartitionE platformPredicate (locateContentFolders tAux) <;>
          simp [h1, h0, hb]
  · unfold getSelectedContentFolders
    by_cases h1 : (locateContentFolders tAux).length = 1
    · simp [h1]
    · by_cases h0 : (locateContentFolders tAux).length = 0
      · simp [h1, h0]
      · cases hb : binaryPartitionE platformPredicate (locateContentFolders tAux) <;>
          simp [h1, h0, hb]

/-- Decidable equality of Except values, for evaluating resolver runs. -/
instance exceptDecEq {ε α : Type} [DecidableEq ε] [DecidableEq α] :
    DecidableEq (Except ε α) := fun x y =>
  match x, y with
  | .ok a, .ok b =>
    if h : a = b then isTrue (by rw [h]) else isFalse (fun hh => by cases hh; exact h rfl)
  | .error a, .error b =>
    if h : a = b then isTrue (by rw [h]) else isFalse (fun hh => by cases hh; exact h rfl)
  | .ok _, .error _ => isFalse (fun hh => by cases hh)
  | .error _, .ok _ => isFalse (fun hh => by cases hh)

/-- An extracted tree with exactly two candidate folders, FolderA and
FolderB, neither of whose names contains an allowed or a banned keyword. -/
def twoNeutralTree : DirTree :=
  .node false (.cons "FolderA" (.node true .nil)
    (.cons "FolderB" (.node true .nil) .nil))

/-- C1 counterexample: on an archive with exactly two keyword-neutral
candidate folders, resolution does not fail with an ambiguity reason — it
accepts both candidates and the installation succeeds, copying both
folders.  This contradicts the claimed TooManyFilteredPalletsFound
failure. -/
theorem c1_counterexample :
    locateContentFolders twoNeutralTree = [["FolderA"], ["FolderB"]]
    ∧ getSelectedContentFolders twoNeutralTree = .ok [["FolderA"], ["FolderB"]]
    ∧ install_mod "archive-stem" twoNeutralTree = .ok ["FolderA", "FolderB"] := by
  refine ⟨rfl, ?_, ?_⟩ <;> decide

/-- C1 witness: the amended statement applied to the two-neutral-folder
archive: both candidates are accepted (no candidate has a keyword), and the
two filtered-pallet failure reasons do not occur. -/
theorem c1_witness :
    (getSelectedContentFolders twoNeutralTree
        = if (locateContentFolders twoNeutralTree).all pathHasKeyword then
            .ok ((locateContentFolders twoNeutralTree).filter pathAccepted)
          else .ok (locateContentFolders twoNeutralTree))
    ∧ getSelectedContentFolders twoNeutralTree ≠ .error .no_filtered_pallet_found
    ∧ getSelectedContentFolders twoNeutralTree ≠ .error .too_many_filtered_pallets_found :=
  c1_filtering_never_fails twoNeutralTree twoNeutralTree (by decide)

/-! ## Claim C8 -/

mutual
/-- Size of a tree, for strong induction over the mutual structure. -/
def treeSize : DirTree → Nat
  | .node _ cs => 1 + forestSize cs
/-- Size of a forest. -/
def forestSize : Forest → Nat
  | .nil => 0
  | .cons _ c rest => 1 + treeSize c + forestSize rest
end

/-- The collected candidates are exactly the spec-side candidates: a path
is returned by the traversal iff it names a directory that directly
contains the sentinel and has no sentinel-containing ancestor (and the
root-path `[]` never comes out of a forest traversal). -/
theorem locate_cand_aux (n : Nat) :
    (∀ t : DirTree, treeSize t ≤ n →
      ∀ p, (p ∈ locateContentFolders t ↔ isCandidate t p = true))
    ∧ (∀ cs : Forest, forestSize cs ≤ n →
        (∀ s p, ((s :: p) ∈ locateForest cs ↔ isCandidateIn cs s p = true))
        ∧ ([] : List String) ∉ locateForest cs) := by
  induction n with
  | zero =>
    constructor
    · intro t ht
      cases t with
      | node b cs => simp [treeSize] at ht
    · intro cs hcs
      cases cs with
      | nil => simp [locateForest, isCandidateIn]
      | cons nm c rest => simp [forestSize] at hcs
  | succ n ih =>
    constructor
    · intro t ht p
      cases t with
      | node b cs =>
        have hcs : forestSize cs ≤ n := by simp [treeSize] at ht; omega
        cases b with
        | true => cases p <;> simp [locateContentFolders, isCandidate]
        | false =>
          cases p with
          | nil =>
            simp only [locateContentFolders, isCandidate]
            simp [(ih.2 cs hcs).2]
          | cons s p' =>
            simp only [locateContentFolders, isCandidate, Bool.not_false, Bool.true_and]
            exact (ih.2 cs hcs).1 s p'
    · intro cs hcs
      cases cs with
      | nil => simp [locateForest, isCandidateIn]
      | cons nm c rest =>
        have hc : treeSize c ≤ n := by simp [forestSize] at hcs; omega
        have hrest : forestSize rest ≤ n := by simp [forestSize] at hcs; omega
        constructor
        · intro s p
          have htree := (ih.1 c hc) p
          have hforest := (ih.2 rest hrest).1 s p
          simp only [locateForest, List.mem_append, List.mem_map, isCandidateIn,
            Bool.or_eq_true, Bool.and_eq_true, decide_eq_true_eq]
          constructor
          · rintro (⟨q, hq, hqe⟩ | h)
            · obtain ⟨he1, he2⟩ := List.cons_eq_cons.mp hqe
              exact Or.inl ⟨he1, htree.mp (he2 ▸ hq)⟩
            · exact Or.inr (hforest.mp h)
          · rintro (⟨he, hcand⟩ | h)
            · exact Or.inl ⟨p, htree.mpr hcand, by rw [he]⟩
            · exact Or.inr (hforest.mpr h)
        · simp only [locateForest, List.mem_append, List.mem_map]
          rintro (⟨q, _, hq⟩ | h)
          · exact List.noConfusion hq
          · exact (ih.2 rest hrest).2 h

/-- Membership in the collected candidates coincides with the spec-side
candidate predicate. -/
theorem mem_locateContentFolders (t : DirTree) (p : List String) :
    p ∈ locateContentFolders t ↔ isCandidate t p = true :=
  (locate_cand_aux (treeSize t)).1 t le_rfl p

/-- On a well-formed tree the traversal returns no duplicate path; paths
returned from a forest start with one of its child names. -/
theorem locate_nodup_aux (n : Nat) :
    (∀ t : DirTree, treeSize t ≤ n → wfTree t = true → (locateContentFolders t).Nodup)
    ∧ (∀ cs : Forest, forestSize cs ≤ n → wfForest cs = true →
        (locateForest cs).Nodup
        ∧ ∀ q ∈ locateForest cs, ∃ s p, q = s :: p ∧ s ∈ forestNames cs) := by
  induction n with
  | zero =>
    constructor
    · intro t ht
      cases t with
      | node b cs => simp [treeSize] at ht
    · intro cs hcs
      cases cs with
      | nil => simp [locateForest]
      | cons nm c rest => simp [forestSize] at hcs
  | succ n ih =>
    constructor
    · intro t ht hwf
      cases t with
      | node b cs =>
        have hcs : forestSize cs ≤ n := by simp [treeSize] at ht; omega
        cases b with
        | true => simp [locateContentFolders]
        | false =>
          have hwf2 : wfForest cs = true := hwf
          exact ((ih.2 cs hcs) hwf2).1
    · intro cs hcs hwf
      cases cs with
      | nil => simp [locateForest]
      | cons nm c rest =>
        have hc : treeSize c ≤ n := by simp [forestSize] at hcs; omega
        have hrest : forestSize rest ≤ n := by simp [forestSize] at hcs; omega
        have hwf2 : ((!(forestNames rest).contains nm && wfTree c) && wfForest rest) = true := hwf
        rw [Bool.and_eq_true, Bool.and_eq_true] at hwf2
        obtain ⟨⟨hnm, hwfc⟩, hwfrest⟩ := hwf2
        have hnm2 : nm ∉ forestNames rest := by
          simpa using hnm
        obtain ⟨hnodrest, hheads⟩ := (ih.2 rest hrest) hwfrest
        have hnodc := (ih.1 c hc) hwfc
        constructor
        · simp only [locateForest]
          apply List.Nodup.append
          · exact hnodc.map (fun a b hab => (List.cons_eq_cons.mp hab).2)
          · exact hnodrest
          · intro q hq1 hq2
            obtain ⟨q0, _, hq0⟩ := List.mem_map.mp hq1
            obtain ⟨s, p, hsp, hs⟩ := hheads q hq2
            rw [← hq0] at hsp
            have : nm = s := (List.cons_eq_cons.mp hsp).1
            exact hnm2 (this ▸ hs)
        · intro q hq
          simp only [locateForest, List.mem_append, List.mem_map] at hq
          rcases hq with ⟨q0, _, hq0⟩ | h
          · exact ⟨nm, q0, hq0.symm, by simp [forestNames]⟩
          · obtain ⟨s, p, hsp, hs⟩ := hheads q h
            exact ⟨s, p, hsp, by simp [forestNames, hs]⟩

/-- On a well-formed tree, the traversal collects each candidate once. -/
theorem locate_nodup (t : DirTree) (hwf : wfTree t = true) :
    (locateContentFolders t).Nodup :=
  (locate_nodup_aux (treeSize t)).1 t le_rfl hwf

/-- A duplicate-free list whose members are exactly `a` is `[a]`. -/
theorem nodup_eq_singleton {α : Type} {l : List α} {a : α}
    (hn : l.Nodup) (hm : ∀ x, x ∈ l ↔ x = a) : l = [a] := by
  cases l with
  | nil => exact absurd ((hm a).mpr rfl) (by simp)
  | cons b bs =>
    have hb : b = a := (hm b).mp (by simp)
    subst hb
    have hbs : bs = [] := by
      rw [List.eq_nil_iff_forall_not_mem]
      intro x hx
      have hxa : x = b := (hm x).mp (by simp [hx])
      exact (List.nodup_cons.mp hn).1 (hxa ▸ hx)
    rw [hbs]

/-- C8: the traversal collects exactly the directories that directly
contain the sentinel with no sentinel-containing ancestor
(`mem_locateContentFolders`); consequently, on a well-formed extracted
tree whose spec-side candidate set is exactly one path, the traversal
returns precisely that path — whatever the sibling iteration order was —
and resolution selects it. -/
theorem c8_unique_candidate_selected (t : DirTree) (p q : List String)
    (hwf : wfTree t = true)
    (huniq : ∀ r, isCandidate t r = true ↔ r = p) :
    (q ∈ locateContentFolders t ↔ isCandidate t q = true)
    ∧ locateContentFolders t = [p]
    ∧ getSelectedContentFolders t = .ok [p] := by
  have hmem : ∀ r, r ∈ locateContentFolders t ↔ r = p :=
    fun r => (mem_locateContentFolders t r).trans (huniq r)
  have hloc : locateContentFolders t = [p] :=
    nodup_eq_singleton (locate_nodup t hwf) hmem
  refine ⟨mem_locateContentFolders t q, hloc, ?_⟩
  unfold getSelectedContentFolders
  simp [hloc]

/-- A tree with one sentinel directory SomeMod and a sentinel-free sibling. -/
def oneCandidateTree : DirTree :=
  .node false (.cons "SomeMod" (.node true .nil)
    (.cons "docs" (.node false .nil) .nil))

/-- C8 witness: on the one-candidate tree, the traversal collects exactly
the path SomeMod and resolution selects it. -/
theorem c8_witness :
    (["SomeMod"] ∈ locateContentFolders oneCandidateTree
      ↔ isCandidate oneCandidateTree ["SomeMod"] = true)
    ∧ locateContentFolders oneCandidateTree = [["SomeMod"]]
    ∧ getSelectedContentFolders oneCandidateTree = .ok [["SomeMod"]] :=
  c8_unique_candidate_selected oneCandidateTree ["SomeMod"] ["SomeMod"] (by decide)
    (fun r => by
      rw [← mem_locateContentFolders]
      rw [show locateContentFolders oneCandidateTree = [["SomeMod"]] from rfl]
      simp)

/-! ## Claim C9 -/

theorem alookup_append_of_some {V : Type} (k : String) (v : V)
    (l1 l2 : List (String × V)) (h : alookup k l1 = some v) :
    alookup k (l1 ++ l2) = some v := by
  induction l1 with
  | nil => simp [alookup] at h
  | cons hd tl ih =>
    by_cases h1 : hd.1 = k
    · simp only [alookup, h1, if_pos] at h ⊢
      simpa using h
    · simp only [alookup, h1, if_neg, not_false_iff, List.cons_append] at h ⊢
      exact ih h

theorem alookup_append_of_none {V : Type} (k : String)
    (l1 l2 : List (String × V)) (h : alookup k l1 = none) :
    alookup k (l1 ++ l2) = alookup k l2 := by
  induction l1 with
  | nil => rfl
  | cons hd tl ih =>
    by_cases h1 : hd.1 = k
    · simp [alookup, h1] at h
    · simp only [alookup, h1, if_neg, not_false_iff] at h
      simpa [alookup, h1] using ih h

theorem aset_of_alookup_none {V : Type} (k : String) (v : V)
    (l : List (String × V)) (h : alookup k l = none) :
    aset k v l = l ++ [(k, v)] := by
  induction l with
  | nil => rfl
  | cons hd tl ih =>
    by_cases h1 : hd.1 = k
    · simp [alookup, h1] at h
    · simp only [alookup, h1, if_neg, not_false_iff] at h
      simp [aset, h1, ih h]

theorem aset_last {V : Type} (k : String) (v w : V)
    (l1 : List (String × V)) (h : alookup k l1 = none) :
    aset k v (l1 ++ [(k, w)]) = l1 ++ [(k, v)] := by
  induction l1 with
  | nil => simp [aset]
  | cons hd tl ih =>
    by_cases h1 : hd.1 = k
    · simp [alookup, h1] at h
    · simp only [alookup, h1, if_neg, not_false_iff] at h
      simp [aset, h1, ih h]

/-- The entries of one game's dict that survive validation: each entry
re-validated, keeping those that still contain info, in order. -/
def survivors (fs : FS) (mods : List (String × ManagedMod)) :
    List (String × ManagedMod) :=
  (mods.map (fun mm => (mm.1, validate_entry fs mm.2))).filter
    (fun mm => mm.2.contains_info)

theorem survivors_cons (fs : FS) (mm : String × ManagedMod)
    (rest : List (String × ManagedMod)) :
    survivors fs (mm :: rest)
      = if (validate_entry fs mm.2).contains_info then
          (mm.1, validate_entry fs mm.2) :: survivors fs rest
        else survivors fs rest := by
  simp [survivors, List.filter_cons]

/-- The games map after validation, as a map-and-filter: each game keeps
its surviving entries, and games left with no entry are dropped. -/
def gamesMF (fs : FS) (games : List (String × List (String × ManagedMod))) :
    List (String × List (String × ManagedMod)) :=
  (games.map (fun gm => (gm.1, survivors fs gm.2))).filter
    (fun gm => !gm.2.isEmpty)

theorem gamesMF_cons (fs : FS) (gm : String × List (String × ManagedMod))
    (rest : List (String × List (String × ManagedMod))) :
    gamesMF fs (gm :: rest)
      = if (survivors fs gm.2).isEmpty then gamesMF fs rest
        else (gm.1, survivors fs gm.2) :: gamesMF fs rest := by
  by_cases he : (survivors fs gm.2).isEmpty <;>
    simp [gamesMF, List.filter_cons, he]

/-- `validate_storage` written functionally. -/
def mapFilterValidate (fs : FS) (s : Storage) : Storage :=
  ⟨gamesMF fs s.games⟩

/-- Well-formedness of a storage value as a parsed JSON document: keys at
both dict levels are unique. -/
def Storage.WF (s : Storage) : Prop :=
  (s.games.map Prod.fst).Nodup
  ∧ ∀ gm ∈ s.games, (gm.2.map Prod.fst).Nodup

instance (s : Storage) : Decidable s.WF := by
  unfold Storage.WF; infer_instance

/-- The validation loop for one game, run on an accumulator whose last
entry is the game being built: it appends the surviving entries. -/
theorem validateModsGo_building (fs : FS) (g : String)
    (mods : List (String × ManagedMod)) :
    ∀ (base : List (String × List (String × ManagedMod)))
      (cur : List (String × ManagedMod)),
      alookup g base = none →
      (∀ k ∈ mods.map Prod.fst, alookup k cur = none) →
      (mods.map Prod.fst).Nodup →
      validateModsGo fs g ⟨base ++ [(g, cur)]⟩ mods
        = ⟨base ++ [(g, cur ++ survivors fs mods)]⟩ := by
  induction mods with
  | nil => intro base cur _ _ _; simp [validateModsGo, survivors]
  | cons mm rest ih =>
    intro base cur hbase hdisj hnodup
    have hcurhead : alookup mm.1 cur = none := hdisj mm.1 (by simp)
    have hheadrest : mm.1 ∉ rest.map Prod.fst := (List.nodup_cons.mp hnodup).1
    have hnodup2 : (rest.map Prod.fst).Nodup := (List.nodup_cons.mp hnodup).2
    by_cases hc : (validate_entry fs mm.2).contains_info
    · have hwrite :
          (Storage.mk (base ++ [(g, cur)])).write_managed_mod g mm.1
              (validate_entry fs mm.2)
            = ⟨base ++ [(g, cur ++ [(mm.1, validate_entry fs mm.2)])]⟩ := by
        unfold Storage.write_managed_mod
        rw [alookup_append_of_none g base [(g, cur)] hbase]
        simp only [alookup, eq_self_iff_true, if_true, Option.getD_some]
        rw [aset_of_alookup_none mm.1 (validate_entry fs mm.2) cur hcurhead]
        rw [aset_last g _ cur base hbase]

      have hstep :
          validateModsGo fs g ⟨base ++ [(g, cur)]⟩ (mm :: rest)
            = validateModsGo fs g
                ⟨base ++ [(g, cur ++ [(mm.1, validate_entry fs mm.2)])]⟩ rest := by
        simp only [validateModsGo, hc, if_pos, hwrite]
      rw [hstep]
      have hdisj2 : ∀ k ∈ rest.map Prod.fst,
          alookup k (cur ++ [(mm.1, validate_entry fs mm.2)]) = none := by
        intro k hk
        have hkne : ¬ mm.1 = k := fun he => hheadrest (he ▸ hk)
        rw [alookup_append_of_none k cur _ (hdisj k (by simp [hk]))]
        simp [alookup, hkne]
      rw [ih base _ hbase hdisj2 hnodup2]
      rw [survivors_cons, if_pos hc, List.append_assoc]
      rfl
    · have hstep :
          validateModsGo fs g ⟨base ++ [(g, cur)]⟩ (mm :: rest)
            = validateModsGo fs g ⟨base ++ [(g, cur)]⟩ rest := by
        simp [validateModsGo, hc]
      rw [hstep]
      rw [ih base cur hbase (fun k hk => hdisj k (by simp [hk])) hnodup2]
      rw [survivors_cons, if_neg hc]

/-- The validation loop for one game on an accumulator that does not yet
hold the game: it appends the game entry exactly when something survives. -/
theorem validateModsGo_fresh (fs : FS) (g : String)
    (mods : List (String × ManagedMod)) :
    ∀ acc : Storage,
      alookup g acc.games = none →
      (mods.map Prod.fst).Nodup →
      validateModsGo fs g acc mods
        = ⟨acc.games ++
            (if (survivors fs mods).isEmpty then []
             else [(g, survivors fs mods)])⟩ := by
  induction mods with
  | nil => intro acc _ _; simp [validateModsGo, survivors]
  | cons mm rest ih =>
    intro acc hacc hnodup
    have hheadrest : mm.1 ∉ rest.map Prod.fst := (List.nodup_cons.mp hnodup).1
    have hnodup2 : (rest.map Prod.fst).Nodup := (List.nodup_cons.mp hnodup).2
    by_cases hc : (validate_entry fs mm.2).contains_info
    · have hwrite :
          acc.write_managed_mod g mm.1 (validate_entry fs mm.2)
            = ⟨acc.games ++ [(g, [(mm.1, validate_entry fs mm.2)])]⟩ := by
        unfold Storage.write_managed_mod
        rw [hacc]
        simp only [Option.getD_none]
        rw [show aset mm.1 (validate_entry fs mm.2) [] = [(mm.1, validate_entry fs mm.2)] from rfl]
        rw [aset_of_alookup_none g _ acc.games hacc]
      have hstep :
          validateModsGo fs g acc (mm :: rest)
            = validateModsGo fs g
                ⟨acc.games ++ [(g, [(mm.1, validate_entry fs mm.2)])]⟩ rest := by
        simp only [validateModsGo, hc, if_pos, hwrite]
      rw [hstep]
      have hdisj : ∀ k ∈ rest.map Prod.fst,
          alookup k [(mm.1, validate_entry fs mm.2)] = none := by
        intro k hk
        have hkne : ¬ mm.1 = k := fun he => hheadrest (he ▸ hk)
        simp [alookup, hkne]
      rw [validateModsGo_building fs g rest acc.games _ hacc hdisj hnodup2]
      rw [survivors_cons, if_pos hc]
      simp
    · have hstep :
          validateModsGo fs g acc (mm :: rest)
            = validateModsGo fs g acc rest := by
        simp [validateModsGo, hc]
      rw [hstep, ih acc hacc hnodup2, survivors_cons, if_neg hc]

/-- The outer validation loop appends the map-and-filter image of the
remaining games to an accumulator disjoint from their keys. -/
theorem validateGamesGo_charact (fs : FS)
    (games : List (String × List (String × ManagedMod))) :
    ∀ acc : Storage,
      (games.map Prod.fst).Nodup →
      (∀ gm ∈ games, (gm.2.map Prod.fst).Nodup) →
      (∀ k ∈ games.map Prod.fst, alookup k acc.games = none) →
      validateGamesGo fs acc games = ⟨acc.games ++ gamesMF fs games⟩ := by
  induction games with
  | nil => intro acc _ _ _; simp [validateGamesGo, gamesMF]
  | cons gm rest ih =>
    intro acc hnd hinner hdisj
    have hndhead : gm.1 ∉ rest.map Prod.fst := (List.nodup_cons.mp (by simpa using hnd)).1
    have hndrest : (rest.map Prod.fst).Nodup := (List.nodup_cons.mp (by simpa using hnd)).2
    have hstep :
        validateGamesGo fs acc (gm :: rest)
          = validateGamesGo fs (validateModsGo fs gm.1 acc gm.2) rest := rfl
    rw [hstep]
    rw [validateModsGo_fresh fs gm.1 gm.2 acc (hdisj gm.1 (by simp))
      (hinner gm (by simp))]
    set opt := if (survivors fs gm.2).isEmpty then
        ([] : List (String × List (String × ManagedMod)))
      else [(gm.1, survivors fs gm.2)] with hopt
    have hdisj2 : ∀ k ∈ rest.map Prod.fst,
        alookup k (acc.games ++ opt) = none := by
      intro k hk
      rw [alookup_append_of_none k acc.games opt (hdisj k (by simp [hk]))]
      have hkne : ¬ gm.1 = k := fun he => hndhead (he ▸ hk)
      rw [hopt]
      by_cases he : (survivors fs gm.2).isEmpty <;> simp [he, alookup, hkne]
    rw [ih ⟨acc.games ++ opt⟩ hndrest (fun x hx => hinner x (by simp [hx])) hdisj2]
    rw [gamesMF_cons]
    by_cases he : (survivors fs gm.2).isEmpty <;>
      simp [hopt, he]

/-- On a well-formed storage, the validation loop equals the
map-and-filter description. -/
theorem validate_eq_mapFilter (fs : FS) (s : Storage) (hwf : s.WF) :
    validate_storage fs s = mapFilterValidate fs s := by
  unfold validate_storage mapFilterValidate
  rw [validateGamesGo_charact fs s.games ⟨[]⟩ hwf.1 hwf.2
    (fun k _ => rfl)]
  rfl

/-- Re-verifying an already verified download record changes nothing. -/
theorem verify_downloaded_mod_idem (fs : FS) (od : Option DownloadedManagedMod) :
    verify_downloaded_mod fs (verify_downloaded_mod fs od)
      = verify_downloaded_mod fs od := by
  cases od with
  | none => rfl
  | some d =>
    unfold verify_downloaded_mod
    by_cases h1 : fs.isFile d.file_path
    · by_cases h2 : fs.md5 d.file_path = d.file_hash <;> simp [h1, h2]
    · simp [h1]

/-- Re-verifying an already verified install record changes nothing. -/
theorem verify_installed_mod_idem (fs : FS) (oi : Option InstalledManagedMod) :
    verify_installed_mod fs (verify_installed_mod fs oi)
      = verify_installed_mod fs oi := by
  cases oi with
  | none => rfl
  | some i =>
    unfold verify_installed_mod
    by_cases h : i.all_paths_present fs <;> simp [h]

/-- `_validate_entry` is idempotent for a fixed filesystem. -/
theorem validate_entry_idem (fs : FS) (m : ManagedMod) :
    validate_entry fs (validate_entry fs m) = validate_entry fs m := by
  unfold validate_entry
  simp [verify_downloaded_mod_idem, verify_installed_mod_idem]

/-- The surviving entries of one game are a fixpoint of re-validation. -/
theorem survivors_idem (fs : FS) (mods : List (String × ManagedMod)) :
    survivors fs (survivors fs mods) = survivors fs mods := by
  induction mods with
  | nil => rfl
  | cons mm rest ih =>
    rw [survivors_cons]
    by_cases hc : (validate_entry fs mm.2).contains_info
    · rw [if_pos hc, survivors_cons]
      simp only [validate_entry_idem]
      rw [if_pos hc, ih]
    · rw [if_neg hc, ih]

/-- The validated games map is a fixpoint of re-validation. -/
theorem gamesMF_idem (fs : FS)
    (games : List (String × List (String × ManagedMod))) :
    gamesMF fs (gamesMF fs games) = gamesMF fs games := by
  induction games with
  | nil => rfl
  | cons gm rest ih =>
    rw [gamesMF_cons]
    by_cases he : (survivors fs gm.2).isEmpty
    · rw [if_pos he, ih]
    · rw [if_neg he, gamesMF_cons]
      simp only [survivors_idem]
      rw [if_neg he, ih]

/-- Surviving entries keep their keys, as a sublist of the original keys. -/
theorem survivors_keys_sublist (fs : FS) (mods : List (String × ManagedMod)) :
    ((survivors fs mods).map Prod.fst).Sublist (mods.map Prod.fst) := by
  unfold survivors
  have h1 := (List.filter_sublist
    (l := mods.map (fun mm => (mm.1, validate_entry fs mm.2)))
    (p := fun mm => mm.2.contains_info)).map Prod.fst
  simpa [List.map_map, Function.comp] using h1

/-- The validated games map keeps its keys, as a sublist. -/
theorem gamesMF_keys_sublist (fs : FS)
    (games : List (String × List (String × ManagedMod))) :
    ((gamesMF fs games).map Prod.fst).Sublist (games.map Prod.fst) := by
  unfold gamesMF
  have h1 := (List.filter_sublist
    (l := games.map (fun gm => (gm.1, survivors fs gm.2)))
    (p := fun gm => !gm.2.isEmpty)).map Prod.fst
  simpa [List.map_map, Function.comp] using h1

/-- Validation preserves well-formedness. -/
theorem mapFilterValidate_WF (fs : FS) (s : Storage) (hwf : s.WF) :
    (mapFilterValidate fs s).WF := by
  constructor
  · exact hwf.1.sublist (gamesMF_keys_sublist fs s.games)
  · intro gm hgm
    have hgm2 := List.mem_filter.mp hgm
    obtain ⟨gm0, hgm0, hmap⟩ := List.mem_map.mp hgm2.1
    have : gm.2 = survivors fs gm0.2 := by rw [← hmap]
    rw [this]
    exact (hwf.2 gm0 hgm0).sublist (survivors_keys_sublist fs gm0.2)

/-- Every entry retained by validation still contains info. -/
theorem gamesMF_all_contain_info (fs : FS)
    (games : List (String × List (String × ManagedMod))) :
    (gamesMF fs games).all (fun gm => gm.2.all (fun mm => mm.2.contains_info)) = true := by
  rw [List.all_eq_true]
  intro gm hgm
  rw [List.all_eq_true]
  intro mm hmm
  have hgm2 := List.mem_filter.mp hgm
  obtain ⟨gm0, _, hmap⟩ := List.mem_map.mp hgm2.1
  have hsurv : mm ∈ survivors fs gm0.2 := by
    have : gm.2 = survivors fs gm0.2 := by rw [← hmap]
    exact this ▸ hmm
  exact (List.mem_filter.mp hsurv).2

/-- C9: on a well-formed stored state and a fixed filesystem, validation is
idempotent, and every retained ManagedMod entry still contains info —
entries whose two fields both failed verification are dropped entirely. -/
theorem c9_validate_idempotent (fs : FS) (s : Storage) (hwf : s.WF) :
    validate_storage fs (validate_storage fs s) = validate_storage fs s
    ∧ (validate_storage fs s).games.all
        (fun gm => gm.2.all (fun mm => mm.2.contains_info)) = true := by
  have h1 := validate_eq_mapFilter fs s hwf
  have h2 := validate_eq_mapFilter fs (mapFilterValidate fs s) (mapFilterValidate_WF fs s hwf)
  constructor
  · rw [h1, h2]
    unfold mapFilterValidate
    rw [gamesMF_idem]
  · rw [h1]
    exact gamesMF_all_contain_info fs s.games

/-- A filesystem on which exactly the archive downloads/good.zip exists,
hashing to goodhash; no directories exist. -/
def fs9 : FS :=
  ⟨fun p => p == "downloads/good.zip", fun _ => false, fun _ => "goodhash"⟩

/-- A document with one verifiable entry and one entry that fails both
verifications. -/
def mixedStorage : Storage :=
  ⟨[("bonelab",
      [("goodmod", { downloaded_mod := some ⟨1, "downloads/good.zip", "goodhash"⟩ }),
       ("badmod",
        ⟨some ⟨2, "downloads/bad.zip", "h"⟩, some ⟨2, ["mods/bad"]⟩⟩)])]⟩

/-- C9 witness: on the mixed document, validating twice equals validating
once, and all retained entries contain info. -/
theorem c9_witness :
    validate_storage fs9 (validate_storage fs9 mixedStorage)
        = validate_storage fs9 mixedStorage
    ∧ (validate_storage fs9 mixedStorage).games.all
        (fun gm => gm.2.all (fun mm => mm.2.contains_info)) = true :=
  c9_validate_idempotent fs9 mixedStorage (by decide)

end ModIO
